import Mathlib

set_option maxRecDepth 8000

/-!
Shallow embedding of the `scifi_food` name-generator library (`src/lib.rs`).

The library draws two-word names (adjective + themed noun) from static word
catalogs using a small xorshift PRNG, and formats them in Title Case.  Rust
`u64` arithmetic is modelled on `Nat` with explicit reduction modulo `2 ^ 64`
where wrap-around can occur; strings are modelled through their character
lists.  Stateful methods are modelled as functions returning the result
together with the updated state.
-/

/-- The modulus of Rust `u64` arithmetic. -/
def u64Mod : Nat := 2 ^ 64

/-- The xorshift PRNG (`TinyRng` in `src/lib.rs`): a single 64-bit state
register, modelled as a natural number below `u64Mod`. -/
structure TinyRng where
  state : Nat
deriving DecidableEq

/-- `TinyRng::from_seed`: a zero seed is remapped to the fixed non-zero
constant `0x4d595df4d0f33173`; any other seed is used as the state directly. -/
def TinyRng.from_seed (seed : Nat) : TinyRng :=
  ⟨if seed = 0 then 0x4d595df4d0f33173 else seed⟩

/-- `TinyRng::next_u64`: three xorshift steps (right shift 12, left shift 25,
right shift 27, each XORed into the state) update the state, and the returned
draw is the new state multiplied by the odd constant `0x2545F4914F6CDD1D`,
with `u64` wrap-around modelled by reduction modulo `2 ^ 64`.  (The two right
shifts and the XORs cannot overflow a `u64`, so only the left shift and the
final multiplication are reduced.) -/
def TinyRng.next_u64 (r : TinyRng) : Nat × TinyRng :=
  let x0 := r.state
  let x1 := x0 ^^^ (x0 >>> 12)
  let x2 := x1 ^^^ ((x1 <<< 25) % u64Mod)
  let x3 := x2 ^^^ (x2 >>> 27)
  ((x3 * 0x2545F4914F6CDD1D) % u64Mod, ⟨x3⟩)

/-- `TinyRng::index`: a zero bound returns 0 without advancing the state;
otherwise one draw is taken and reduced modulo the bound. -/
def TinyRng.index (r : TinyRng) (upper : Nat) : Nat × TinyRng :=
  if upper = 0 then (0, r)
  else
    let (v, r1) := r.next_u64
    (v % upper, r1)

/-- A word-list bundle (`WordLists` in `src/lib.rs`): the theme-specific
nouns. -/
structure WordLists where
  nouns : List String
/-- The shared adjective catalog (`ADJECTIVES` in `src/lib.rs`). -/
def ADJECTIVES : List String := [
  "acidic", "aged", "agile", "agreeable", "airy", "amber",
  "ancient", "angry", "animated", "anxious", "aqua", "aquamarine",
  "arctic", "aromatic", "atomic", "autumn", "azure", "balanced",
  "balmy", "bashful", "beige", "black", "blazing", "blissful",
  "blue", "bold", "bouncy", "breezy", "bright", "brilliant",
  "brisk", "brittle", "bronze", "brown", "bubbling", "bubbly",
  "buoyant", "buttery", "buzzy", "calm", "candid", "caramel",
  "celestial", "cheerful", "cheery", "chewy", "chilly", "chrome",
  "citrus", "citrusy", "clean", "clear", "clever", "cloudless",
  "cloudy", "cobalt", "cold", "colorful", "compact", "content",
  "cooked", "cool", "copper", "coral", "cranky", "cream",
  "creamy", "crimson", "crisp", "crumbly", "crunchy", "crusty",
  "crystal", "curious", "curvy", "daring", "dashing", "dazzling",
  "deft", "dense", "dew", "dim", "downy", "dreamy",
  "droopy", "dry", "dusky", "dusty", "dynamic", "eager",
  "earthy", "ebony", "electric", "emerald", "energetic", "excited",
  "exuberant", "fearless", "feathery", "fierce", "fiery", "flaky",
  "flavorful", "fleet", "fluffy", "foggy", "fragrant", "fresh",
  "friendly", "frosty", "gentle", "giant", "gilded", "gleaming",
  "gleeful", "glimmering", "glinting", "glittering", "glossy", "glowing",
  "glum", "gold", "golden", "gooey", "grand", "grateful",
  "gray", "green", "gritty", "grumpy", "guilty", "happy",
  "hazel", "heavy", "heroic", "honeyed", "hopeful", "hot",
  "huge", "humming", "icy", "immediate", "indigo", "intrepid",
  "ivory", "jazzy", "jittery", "jovial", "joyful", "juicy",
  "keen", "kindly", "lavender", "lemon", "light", "lime",
  "lithe", "little", "lively", "lonely", "lucid", "lukewarm",
  "luminous", "lustrous", "magenta", "magnetic", "maroon", "massive",
  "melancholy", "mellow", "merry", "mighty", "milky", "misty",
  "moldy", "moody", "mushy", "navy", "nervous", "new",
  "nimble", "noble", "noisy", "ochre", "old", "olive",
  "oozy", "optimistic", "orange", "peaceful", "pearl", "peppery",
  "peppy", "perfumed", "perky", "petite", "pink", "playful",
  "pleased", "plucky", "plum", "polar", "polished", "primal",
  "prism", "pristine", "proud", "pungent", "pure", "purple",
  "quick", "quiet", "radiant", "rainy", "rapid", "raw",
  "red", "restless", "ripe", "roaring", "rosy", "round",
  "ruby", "rustling", "rusty", "sad", "saffron", "salty",
  "sandy", "savory", "scalding", "scarlet", "sepia", "serene",
  "shadowy", "shimmering", "shiny", "shy", "silent", "silken",
  "silky", "silly", "silver", "sincere", "sleek", "sleepy",
  "slender", "slippery", "small", "smelly", "smoky", "smooth",
  "smug", "snappy", "snowy", "soggy", "solar", "solid",
  "soothing", "sparkling", "sparkly", "speedy", "spiced", "spicy",
  "spirited", "sprightly", "sprinting", "spry", "square", "stale",
  "steadfast", "steamy", "stellar", "sticky", "stinky", "stormy",
  "succulent", "sunlit", "sunny", "sweet", "sweltering", "swift",
  "syrupy", "tangy", "tart", "teal", "teeny", "tender",
  "tense", "thoughtful", "thundering", "tidy", "tiny", "toasty",
  "tropical", "turquoise", "twinkling", "upbeat", "upset", "vast",
  "vibrant", "violet", "vivid", "warm", "whimsical", "whirring",
  "white", "wide", "wild", "wintry", "wistful", "witty",
  "worried", "wrinkly", "yellow", "zealous", "zesty", "zippy"]

/-- The food-themed noun catalog (`FOOD_WORDS` in `src/lib.rs`). -/
def FOOD_WORDS : WordLists := ⟨[
  "acai", "almond", "amberjack", "anchovy", "apple", "apricot",
  "artichoke", "arugula", "asparagus", "avocado", "bacon", "bagel",
  "banana", "barracuda", "basil", "bass", "beef", "beet",
  "bilberry", "biscuit", "black cod", "blackberry", "blackcurrant", "blueberry",
  "bluefin", "bonito", "boysenberry", "bread", "breadfruit", "brisket",
  "broccoli", "broccolini", "brownie", "brussels", "bun", "butterfish",
  "cabbage", "cake", "candy", "cantaloupe", "caramel", "carrot",
  "cashew", "catfish", "cauliflower", "celery", "cereal", "chard",
  "cherry", "chicken", "chipotle", "churro", "clams", "clementine",
  "cloudberry", "coconut", "cod", "collard", "cookie", "couscous",
  "cranberry", "croissant", "cucumber", "currant", "curry", "cuttlefish",
  "date", "dewberry", "doughnut", "dragonfruit", "duck", "dumpling",
  "durian", "edamame", "eel", "eggplant", "elderberry", "falafel",
  "feijoa", "fennel", "fig", "fingerlime", "flounder", "fondue",
  "garlic", "ginger", "goji", "gooseberry", "granola", "grape",
  "grapefruit", "grouper", "guava", "halibut", "ham", "hazelnut",
  "herring", "honey", "honeydew", "huckleberry", "jackfruit", "jelly",
  "jujube", "kale", "kimchi", "kingfish", "kiwi", "kiwifruit",
  "kumquat", "lamb", "lasagna", "leek", "lemon", "lentil",
  "lettuce", "lime", "lingonberry", "lobster", "longan", "loquat",
  "lychee", "mackerel", "mahi mahi", "mandarin", "mango", "mangosteen",
  "marionberry", "marlin", "marshmallow", "miracleberry", "miso", "mochi",
  "muffin", "mulberry", "mussels", "mutton", "nectarine", "noodle",
  "nutmeg", "octopus", "okra", "olive", "omelet", "onion",
  "orange", "oyster", "pancake", "papaya", "parsnip", "passionfruit",
  "pasta", "peach", "peanut", "pear", "pepper", "perch",
  "persimmon", "pickle", "pie", "pike", "pineapple", "pistachio",
  "pizza", "plantain", "plum", "pollock", "pomegranate", "pomelo",
  "pork", "potato", "prawn", "pretzel", "prune", "quinoa",
  "radish", "raisin", "ramen", "raspberry", "redcurrant", "risotto",
  "rockfish", "rutabaga", "sablefish", "salami", "salmon steak", "salmonberry",
  "salsa", "sardine", "satsuma", "sausage", "scallion", "scallop",
  "sesame", "shallot", "shrimp", "snapper", "sole", "sorbet",
  "soy", "spaghetti", "spinach", "squash", "squid", "starfruit",
  "steak", "steelhead", "stew", "strawberry", "sturgeon", "sugarapple",
  "sundae", "sushi", "taco", "tamarind", "tangerine", "tilapia",
  "toffee", "tomato", "truffle", "tuna steak", "turbot", "turkey",
  "turnip", "veal", "venison", "waffle", "walnut", "watermelon",
  "waxapple", "whitefish", "wintermelon", "yam", "yogurt", "youngberry",
  "yumberry", "zinfandel", "zucchini"]⟩

/-- The sci-fi-themed noun catalog (`SCIFI_WORDS` in `src/lib.rs`). -/
def SCIFI_WORDS : WordLists := ⟨[
  "ablative plating", "ai nexus", "android", "anomaly", "antimatter cell", "aperture",
  "asteroid", "asteroid belt", "astral plane", "astronaut", "atmosphere processor", "aurora",
  "battle shield", "beacon", "binary star", "biodome", "black hole", "blaster",
  "blue giant", "capsule", "cargo bay", "citadel", "climate array", "cloaking mesh",
  "comet", "comms array", "constellation", "cosmic dust", "cosmic ray", "cosmos",
  "countermeasure pack", "cruiser", "cryosleep pod", "cyborg", "dark energy", "dark matter",
  "data vault", "deep space", "deep space probe", "defense grid", "deflector array", "docking tube",
  "domed city", "droid", "dwarf planet", "eclipse", "emergency beacon", "encryption node",
  "energy matrix", "engine", "enigma", "eva suit", "event horizon", "exoplanet",
  "exosuit", "falcon", "firewall grid", "frontier", "fusion", "fusion core",
  "fusion lab", "galaxy", "gamma ray", "gas giant", "gaseous mass", "geothermal tap",
  "globular cluster", "grav boots", "gravity anchor", "gravity hub", "gravity well", "hab pod",
  "heliosphere", "heuristic core", "hovercraft", "hydroponics bay", "hyperdrive", "hypergiant",
  "ice giant", "inertial damper", "interstellar medium", "ion", "ion core", "ion storm",
  "jetpack", "kepler", "kuiper belt", "laser cannon", "launch window", "launchpad",
  "light speed", "logic node", "lunar base", "magnetar", "magnetosphere", "mainframe cluster",
  "maintenance drone", "mass driver", "meteor", "meteor shower", "meteor storm", "meteorite",
  "microgravity", "mining colony", "module", "mothership", "nano armor", "nebula",
  "neural core", "neutrino scanner", "neutron", "nova", "observation deck", "observation dome",
  "observatory", "open cluster", "orbital platform", "orbital ring", "orbiter", "outpost",
  "phantom", "phase", "photon", "photon belt", "pioneer", "planetary nebula",
  "planetfall", "plasma", "plasma battery", "portal", "deathstar", "star cruiser",
  "mind control", "cyberpunk", "robodog", "robocop", "positronic brain", "power conduit",
  "predictive module", "probe", "protoplanet", "protostar", "pulsar", "quantum",
  "quantum array", "quantum link", "quasar", "radio telescope", "ranger", "reactor",
  "reactor bay", "rebreather", "red dwarf", "red giant", "relay tower", "ring system",
  "rocket", "rogue planet", "satellite", "scanner pod", "scout", "security firewall",
  "sensor sweep", "sensor visor", "sentience chip", "shield harmonics", "ship", "shuttle",
  "signal booster", "singularity", "solar flare", "solar sail", "solar wind", "solstice",
  "space colony", "space elevator", "space probe", "space station", "space telescope", "space-time",
  "spectrum", "speeder", "star", "star chart", "star cluster", "star forge",
  "star gate", "star map", "starbase", "starlight", "starship", "ion cannon",
  "station", "stellar nursery", "stellar reactor", "subspace relay", "supergiant", "supernova",
  "survival pod", "tachyon capacitor", "telemetry drone", "terra farm", "terraform dome", "terraform rig",
  "terrestrial planet", "thruster", "transponder", "transporter", "tricorder", "triple star",
  "ufo", "vector", "warp", "wayfinder", "waypoint", "weather tower",
  "white dwarf", "wing", "wormhole", "xenobot", "xenon", "zenith",
  "zephyr", "zircon", "zodiac"]⟩

/-- Raw adjective + noun pair (`NamePair` in `src/lib.rs`). -/
structure NamePair where
  adjective : String
  noun : String
deriving DecidableEq

/-- Models `char::to_uppercase` from the Rust standard library (not part of
this repository): an iterator of upper-case characters.  Every catalog word is
ASCII, where the mapping is the single-character ASCII upper-case
conversion. -/
def charToUppercase (c : Char) : List Char := [c.toUpper]

/-- Models `char::to_lowercase` from the Rust standard library, as the
single-character ASCII lower-case conversion. -/
def charToLowercase (c : Char) : List Char := [c.toLower]

/-- The delimiter test of the title-case formatter (`ch == '-' || ch == '_'
|| ch == ' '` in `src/lib.rs`). -/
def isDelim (c : Char) : Prop := c = '-' ∨ c = '_' ∨ c = ' '

instance (c : Char) : Decidable (isDelim c) := by
  unfold isDelim
  infer_instance

/-- `push_title_case` in `src/lib.rs`: the loop over the characters of the
word, with the mutable `capitalize_next` flag as an explicit argument and the
appended-to output buffer as the returned list.  A hyphen, underscore or space
is replaced by a space and forces the next character to upper case; otherwise
the character is upper-cased when the flag is set and lower-cased when it is
not. -/
def push_title_case (capitalize_next : Bool) : List Char → List Char
  | [] => []
  | c :: cs =>
    if isDelim c then
      ' ' :: push_title_case true cs
    else if capitalize_next then
      charToUppercase c ++ push_title_case false cs
    else
      charToLowercase c ++ push_title_case false cs

/-- `NamePair::title_case`: the title-cased adjective, a single space, then the
title-cased noun. -/
def NamePair.title_case (p : NamePair) : String :=
  ⟨push_title_case true p.adjective.data ++ ' ' :: push_title_case true p.noun.data⟩

/-- `select_pair` in `src/lib.rs`: draw the adjective index first, then the
noun index, and look both words up in their catalogs.  (Rust indexing is
modelled with `List.getD`; the drawn indices are proved in bounds below.) -/
def select_pair (words : WordLists) (rng : TinyRng) : NamePair × TinyRng :=
  let (i, rng1) := rng.index ADJECTIVES.length
  let adjective := ADJECTIVES.getD i ""
  let (j, rng2) := rng1.index words.nouns.length
  let noun := words.nouns.getD j ""
  (⟨adjective, noun⟩, rng2)

/-- `NameGenerator` in `src/lib.rs`: owns exactly one `TinyRng`. -/
structure NameGenerator where
  rng : TinyRng
deriving DecidableEq

/-- `NameGenerator::from_seed`. -/
def NameGenerator.from_seed (seed : Nat) : NameGenerator :=
  ⟨TinyRng.from_seed seed⟩

/-- The derived `Clone` on `NameGenerator`: a field-wise copy of the `TinyRng`
state. -/
def NameGenerator.clone (g : NameGenerator) : NameGenerator :=
  ⟨g.rng⟩

/-- `NameGenerator::food_words`. -/
def NameGenerator.food_words (g : NameGenerator) : NamePair × NameGenerator :=
  let (p, r) := select_pair FOOD_WORDS g.rng
  (p, ⟨r⟩)

/-- `NameGenerator::scifi_words`. -/
def NameGenerator.scifi_words (g : NameGenerator) : NamePair × NameGenerator :=
  let (p, r) := select_pair SCIFI_WORDS g.rng
  (p, ⟨r⟩)

/-- `NameGenerator::food_name`. -/
def NameGenerator.food_name (g : NameGenerator) : String × NameGenerator :=
  let (p, g1) := g.food_words
  (p.title_case, g1)

/-- `NameGenerator::scifi_name`. -/
def NameGenerator.scifi_name (g : NameGenerator) : String × NameGenerator :=
  let (p, g1) := g.scifi_words
  (p.title_case, g1)

/-- `random_name` in `src/lib.rs`, with the thread-local global RNG state
passed explicitly. -/
def random_name (list : WordLists) (rng : TinyRng) : String × TinyRng :=
  let (p, r) := select_pair list rng
  (p.title_case, r)

/-- `random_food_name`, with the thread-local global RNG state explicit. -/
def random_food_name (rng : TinyRng) : String × TinyRng :=
  random_name FOOD_WORDS rng

/-- `random_scifi_name`, with the thread-local global RNG state explicit. -/
def random_scifi_name (rng : TinyRng) : String × TinyRng :=
  random_name SCIFI_WORDS rng

/-- `random_food_words`, with the thread-local global RNG state explicit. -/
def random_food_words (rng : TinyRng) : NamePair × TinyRng :=
  select_pair FOOD_WORDS rng

/-- `random_scifi_words`, with the thread-local global RNG state explicit. -/
def random_scifi_words (rng : TinyRng) : NamePair × TinyRng :=
  select_pair SCIFI_WORDS rng

/-- Which themed draw a caller makes at one step of an interleaving. -/
inductive Theme
  | food
  | scifi
deriving DecidableEq

/-- Run a finite sequence of interleaved `food_words` / `scifi_words` calls on
a generator, collecting the returned pairs in call order. -/
def runCalls : List Theme → NameGenerator → List NamePair × NameGenerator
  | [], g => ([], g)
  | t :: ts, g =>
    let (p, g1) :=
      match t with
      | Theme.food => g.food_words
      | Theme.scifi => g.scifi_words
    let (ps, g2) := runCalls ts g1
    (p :: ps, g2)

/-- Split a word at delimiter characters, keeping empty segments. -/
def splitWords : List Char → List (List Char)
  | [] => [[]]
  | c :: cs =>
    if isDelim c then [] :: splitWords cs
    else
      match splitWords cs with
      | [] => [[c]]
      | s :: rest => (c :: s) :: rest

/-- Capitalize one segment: the upper-case mapping on the first character, the
lower-case mapping on every later character. -/
def capitalizeSegment : List Char → List Char
  | [] => []
  | c :: cs => charToUppercase c ++ (cs.map charToLowercase).flatten

/-- Join segments with a single space between consecutive segments. -/
def joinSpace : List (List Char) → List Char
  | [] => []
  | [s] => s
  | s :: s1 :: rest => s ++ ' ' :: joinSpace (s1 :: rest)

/-- The specification form of Title Case: split at delimiters, capitalize each
segment, join the segments with single spaces. -/
def specTitleCase (w : List Char) : List Char :=
  joinSpace ((splitWords w).map capitalizeSegment)

/-- What the formatter loop produces when the `capitalize_next` flag is down:
the first segment is entirely lower-cased, and from the first delimiter on the
output coincides with `specTitleCase`. -/
def specLowerCont (w : List Char) : List Char :=
  match splitWords w with
  | [] => []
  | s :: rest =>
    (s.map charToLowercase).flatten ++
      match rest with
      | [] => []
      | r :: rs => ' ' :: joinSpace ((r :: rs).map capitalizeSegment)

lemma splitWords_ne_nil (w : List Char) : splitWords w ≠ [] := by
  cases w with
  | nil => simp [splitWords]
  | cons c cs =>
    unfold splitWords
    split
    · simp
    · cases h : splitWords cs <;> simp

lemma splitWords_cons_delim {c : Char} (cs : List Char) (h : isDelim c) :
    splitWords (c :: cs) = [] :: splitWords cs := by
  simp only [splitWords]
  rw [if_pos h]

lemma splitWords_cons_nondelim {c : Char} {cs : List Char} {s : List Char}
    {rest : List (List Char)} (h : ¬isDelim c) (hs : splitWords cs = s :: rest) :
    splitWords (c :: cs) = (c :: s) :: rest := by
  simp only [splitWords]
  rw [if_neg h, hs]

lemma push_title_case_cons_delim (b : Bool) {c : Char} (cs : List Char)
    (h : isDelim c) :
    push_title_case b (c :: cs) = ' ' :: push_title_case true cs := by
  simp only [push_title_case]
  rw [if_pos h]

lemma push_title_case_cons_true {c : Char} (cs : List Char) (h : ¬isDelim c) :
    push_title_case true (c :: cs) = charToUppercase c ++ push_title_case false cs := by
  simp only [push_title_case]
  rw [if_neg h]
  simp

lemma push_title_case_cons_false {c : Char} (cs : List Char) (h : ¬isDelim c) :
    push_title_case false (c :: cs) = charToLowercase c ++ push_title_case false cs := by
  simp only [push_title_case]
  rw [if_neg h]
  simp

lemma joinSpace_cons_cons (s s1 : List Char) (rest : List (List Char)) :
    joinSpace (s :: s1 :: rest) = s ++ ' ' :: joinSpace (s1 :: rest) := rfl

lemma specTitleCase_cons_delim {c : Char} (cs : List Char) (h : isDelim c) :
    specTitleCase (c :: cs) = ' ' :: specTitleCase cs := by
  obtain ⟨s, rest, hs⟩ : ∃ s rest, splitWords cs = s :: rest := by
    cases hsw : splitWords cs with
    | nil => exact absurd hsw (splitWords_ne_nil cs)
    | cons s rest => exact ⟨s, rest, rfl⟩
  unfold specTitleCase
  rw [splitWords_cons_delim cs h, hs]
  rfl

lemma specLowerCont_cons_delim {c : Char} (cs : List Char) (h : isDelim c) :
    specLowerCont (c :: cs) = ' ' :: specTitleCase cs := by
  obtain ⟨s, rest, hs⟩ : ∃ s rest, splitWords cs = s :: rest := by
    cases hsw : splitWords cs with
    | nil => exact absurd hsw (splitWords_ne_nil cs)
    | cons s rest => exact ⟨s, rest, rfl⟩
  unfold specLowerCont specTitleCase
  rw [splitWords_cons_delim cs h, hs]
  rfl

lemma specTitleCase_cons_nondelim {c : Char} (cs : List Char) (h : ¬isDelim c) :
    specTitleCase (c :: cs) = charToUppercase c ++ specLowerCont cs := by
  obtain ⟨s, rest, hs⟩ : ∃ s rest, splitWords cs = s :: rest := by
    cases hsw : splitWords cs with
    | nil => exact absurd hsw (splitWords_ne_nil cs)
    | cons s rest => exact ⟨s, rest, rfl⟩
  unfold specTitleCase specLowerCont
  rw [splitWords_cons_nondelim h hs, hs]
  cases rest with
  | nil =>
    show joinSpace [capitalizeSegment (c :: s)] = _
    simp [joinSpace, capitalizeSegment]
  | cons r rs =>
    show joinSpace (capitalizeSegment (c :: s) :: (r :: rs).map capitalizeSegment) = _
    rw [List.map_cons, joinSpace_cons_cons]
    simp [capitalizeSegment]

lemma specLowerCont_cons_nondelim {c : Char} (cs : List Char) (h : ¬isDelim c) :
    specLowerCont (c :: cs) = charToLowercase c ++ specLowerCont cs := by
  obtain ⟨s, rest, hs⟩ : ∃ s rest, splitWords cs = s :: rest := by
    cases hsw : splitWords cs with
    | nil => exact absurd hsw (splitWords_ne_nil cs)
    | cons s rest => exact ⟨s, rest, rfl⟩
  unfold specLowerCont
  rw [splitWords_cons_nondelim h hs, hs]
  simp [charToLowercase]

/-- The formatter loop, in both flag states, computes the split-capitalize-join
specification. -/
lemma push_title_case_eq_spec (w : List Char) :
    push_title_case true w = specTitleCase w ∧
      push_title_case false w = specLowerCont w := by
  induction w with
  | nil => exact ⟨rfl, rfl⟩
  | cons c cs ih =>
    obtain ⟨ih1, ih2⟩ := ih
    by_cases hd : isDelim c
    · rw [push_title_case_cons_delim true cs hd, push_title_case_cons_delim false cs hd,
        specTitleCase_cons_delim cs hd, specLowerCont_cons_delim cs hd, ih1]
      exact ⟨rfl, rfl⟩
    · rw [push_title_case_cons_true cs hd, push_title_case_cons_false cs hd,
        specTitleCase_cons_nondelim cs hd, specLowerCont_cons_nondelim cs hd, ih2]
      exact ⟨rfl, rfl⟩

lemma next_u64_state_eq (r : TinyRng) :
    ((r.next_u64).2).state =
      ((r.state ^^^ (r.state >>> 12)) ^^^
          (((r.state ^^^ (r.state >>> 12)) <<< 25) % u64Mod)) ^^^
        (((r.state ^^^ (r.state >>> 12)) ^^^
            (((r.state ^^^ (r.state >>> 12)) <<< 25) % u64Mod)) >>> 27) := rfl

lemma next_u64_fst_eq (r : TinyRng) :
    (r.next_u64).1 = ((r.next_u64).2).state * 0x2545F4914F6CDD1D % u64Mod := rfl

/-- XOR of a value with a proper right shift of itself is zero only at zero. -/
lemma xor_shr_ne_zero (x k : Nat) (hx : x ≠ 0) (hk : 0 < k) :
    x ^^^ (x >>> k) ≠ 0 := by
  intro h0
  have hxx : x = x >>> k := Nat.xor_eq_zero.mp h0
  have hlt : x >>> k < x := by
    rw [Nat.shiftRight_eq_div_pow]
    exact Nat.div_lt_self (Nat.pos_of_ne_zero hx) (Nat.one_lt_two_pow (by omega))
  omega

/-- XOR of a value with its truncated left shift by 25 is zero only at zero:
the value would have to be divisible by ever-higher powers of two. -/
lemma xor_shl_mod_ne_zero (x : Nat) (hx : x ≠ 0) :
    x ^^^ ((x <<< 25) % u64Mod) ≠ 0 := by
  intro h0
  have hxx : x = (x <<< 25) % u64Mod := Nat.xor_eq_zero.mp h0
  rw [Nat.shiftLeft_eq] at hxx
  have h25 : (2 : Nat) ^ 25 ∣ x := by
    rw [hxx]
    refine (Nat.dvd_mod_iff ?_).mpr (dvd_mul_left _ _)
    exact pow_dvd_pow 2 (by omega)
  have h50 : (2 : Nat) ^ 50 ∣ x := by
    rw [hxx]
    refine (Nat.dvd_mod_iff (pow_dvd_pow 2 (by omega))).mpr ?_
    have : (2 : Nat) ^ 25 * 2 ^ 25 ∣ x * 2 ^ 25 := mul_dvd_mul h25 dvd_rfl
    simpa [← pow_add] using this
  have h64 : u64Mod ∣ x * 2 ^ 25 := by
    have h75 : (2 : Nat) ^ 50 * 2 ^ 25 ∣ x * 2 ^ 25 := mul_dvd_mul h50 dvd_rfl
    refine dvd_trans ?_ h75
    unfold u64Mod
    rw [← pow_add]
    exact pow_dvd_pow 2 (by omega)
  have : x = 0 := by
    rw [hxx]
    exact Nat.mod_eq_zero_of_dvd h64
  exact hx this

/-- One `next_u64` draw maps a non-zero state to a non-zero state. -/
lemma next_state_ne_zero (r : TinyRng) (h : r.state ≠ 0) :
    ((r.next_u64).2).state ≠ 0 := by
  rw [next_u64_state_eq]
  exact xor_shr_ne_zero _ 27 (xor_shl_mod_ne_zero _ (xor_shr_ne_zero _ 12 h (by omega)))
    (by omega)

lemma index_pos_eq (r : TinyRng) {n : Nat} (h : 0 < n) :
    r.index n = ((r.next_u64).1 % n, (r.next_u64).2) := by
  unfold TinyRng.index
  rw [if_neg (by omega)]

lemma index_lt (r : TinyRng) {n : Nat} (h : 0 < n) : (r.index n).1 < n := by
  rw [index_pos_eq r h]
  exact Nat.mod_lt _ h

lemma getD_mem {l : List String} {i : Nat} (d : String) (h : i < l.length) :
    l.getD i d ∈ l := by
  have heq : l.getD i d = l.get ⟨i, h⟩ := by
    simp [List.getD_eq_getElem?_getD, List.getElem?_eq_getElem h]
  rw [heq]
  exact l.get_mem _ _

/-- The two catalogs of nouns and the adjective catalog are non-empty. -/
lemma catalogs_nonempty :
    0 < ADJECTIVES.length ∧ 0 < FOOD_WORDS.nouns.length ∧
      0 < SCIFI_WORDS.nouns.length := by
  refine ⟨?_, ?_, ?_⟩ <;> simp [ADJECTIVES, FOOD_WORDS, SCIFI_WORDS]

/-- Unfolding of `select_pair`: the adjective index is drawn first from the
adjective catalog, then the noun index from the theme catalog. -/
lemma select_pair_eq (words : WordLists) (rng : TinyRng) :
    select_pair words rng =
      (⟨ADJECTIVES.getD (rng.index ADJECTIVES.length).1 "",
        words.nouns.getD (((rng.index ADJECTIVES.length).2).index words.nouns.length).1 ""⟩,
       (((rng.index ADJECTIVES.length).2).index words.nouns.length).2) := by
  unfold select_pair
  rcases h1 : rng.index ADJECTIVES.length with ⟨i, rng1⟩
  rcases h2 : rng1.index words.nouns.length with ⟨j, rng2⟩
  simp [h1, h2]

lemma select_pair_mem (words : WordLists) (hw : 0 < words.nouns.length)
    (rng : TinyRng) :
    (select_pair words rng).1.adjective ∈ ADJECTIVES ∧
      (select_pair words rng).1.noun ∈ words.nouns := by
  rw [select_pair_eq]
  exact ⟨getD_mem _ (index_lt _ catalogs_nonempty.1), getD_mem _ (index_lt _ hw)⟩

/-- A well-formed formatted name: upper-case first character, no leading or
trailing whitespace, and a space strictly inside the string (non-empty text on
both sides). -/
def wellFormedName (s : String) : Prop :=
  (s.data.headD ' ').isUpper = true ∧
  (s.data.headD ' ').isWhitespace = false ∧
  ((s.data.getLast?.getD ' ').isWhitespace = false) ∧
  ∃ l r, s.data = l ++ ' ' :: r ∧ l ≠ [] ∧ r ≠ []

/-- Decidable per-word check: the title-cased adjective is non-empty, starts
with an upper-case, non-whitespace character. -/
def titledAdjOk (a : String) : Bool :=
  let t := push_title_case true a.data
  !t.isEmpty && (t.headD ' ').isUpper && !(t.headD ' ').isWhitespace

/-- Decidable per-word check: the title-cased noun is non-empty and does not
end in whitespace. -/
def titledNounOk (n : String) : Bool :=
  let t := push_title_case true n.data
  !t.isEmpty && !((t.getLast?.getD ' ').isWhitespace)

lemma adjectives_titled_ok : ∀ a ∈ ADJECTIVES, titledAdjOk a = true := by decide

lemma food_titled_ok : ∀ n ∈ FOOD_WORDS.nouns, titledNounOk n = true := by decide

lemma scifi_titled_ok : ∀ n ∈ SCIFI_WORDS.nouns, titledNounOk n = true := by decide

lemma headD_append {l : List Char} (r : List Char) (d : Char) (h : l ≠ []) :
    (l ++ r).headD d = l.headD d := by
  cases l with
  | nil => exact absurd rfl h
  | cons a t => rfl

/-- A pair of per-word-checked words formats to a well-formed name. -/
lemma titled_pair_wf {a n : String} (hA : titledAdjOk a = true)
    (hN : titledNounOk n = true) :
    wellFormedName (NamePair.mk a n).title_case := by
  unfold titledAdjOk at hA
  unfold titledNounOk at hN
  simp only [Bool.and_eq_true, Bool.not_eq_true'] at hA hN
  obtain ⟨⟨hA1, hA2⟩, hA3⟩ := hA
  obtain ⟨hN1, hN2⟩ := hN
  have hta : push_title_case true a.data ≠ [] := by
    intro h
    rw [h] at hA1
    simp at hA1
  have htn : push_title_case true n.data ≠ [] := by
    intro h
    rw [h] at hN1
    simp at hN1
  have hdata : (NamePair.mk a n).title_case.data =
      push_title_case true a.data ++ ' ' :: push_title_case true n.data := rfl
  refine ⟨?_, ?_, ?_, ?_⟩
  · rw [hdata, headD_append _ _ hta]
    exact hA2
  · rw [hdata, headD_append _ _ hta]
    exact hA3
  · rw [hdata, List.getLast?_append_of_ne_nil _ (by simp)]
    have hsplit : (' ' :: push_title_case true n.data) =
        [' '] ++ push_title_case true n.data := rfl
    rw [hsplit, List.getLast?_append_of_ne_nil _ htn]
    exact hN2
  · exact ⟨_, _, hdata, hta, htn⟩

lemma random_name_fst (list : WordLists) (rng : TinyRng) :
    (random_name list rng).1 = (select_pair list rng).1.title_case := by
  unfold random_name
  rcases h : select_pair list rng with ⟨p, r⟩
  simp [h]

/-- C1: Two generators constructed via `NameGenerator.from_seed` with the same
64-bit seed produce pairwise identical `NamePair` results under every finite
sequence of interleaved `food_words` / `scifi_words` calls made in the same
order, for every seed, including 0 and the zero-remap constant
`0x4d595df4d0f33173`. -/
theorem determinism_same_seed (s : Nat) (g1 g2 : NameGenerator)
    (h1 : g1 = NameGenerator.from_seed s) (h2 : g2 = NameGenerator.from_seed s)
    (calls : List Theme) :
    (runCalls calls g1).1 = (runCalls calls g2).1 := by
  subst h1
  subst h2
  rfl

/-- Witness for C1 at seed 0 and at the zero-remap constant. -/
theorem determinism_same_seed_witness :
    (runCalls [Theme.food, Theme.scifi] (NameGenerator.from_seed 0)).1 =
        (runCalls [Theme.food, Theme.scifi] (NameGenerator.from_seed 0)).1 ∧
      (runCalls [Theme.scifi, Theme.food]
            (NameGenerator.from_seed 0x4d595df4d0f33173)).1 =
        (runCalls [Theme.scifi, Theme.food]
            (NameGenerator.from_seed 0x4d595df4d0f33173)).1 :=
  ⟨determinism_same_seed 0 (NameGenerator.from_seed 0) (NameGenerator.from_seed 0)
      rfl rfl [Theme.food, Theme.scifi],
    determinism_same_seed 0x4d595df4d0f33173
      (NameGenerator.from_seed 0x4d595df4d0f33173)
      (NameGenerator.from_seed 0x4d595df4d0f33173) rfl rfl
      [Theme.scifi, Theme.food]⟩

/-- C2: One `next_u64` call updates the state through the three-step xorshift
transform (XOR with right shift 12, then with truncated left shift 25, then
with right shift 27) and returns the post-shift state multiplied by the odd
constant `0x2545F4914F6CDD1D` modulo `2 ^ 64`. -/
theorem next_u64_transform (r : TinyRng) :
    ((r.next_u64).2).state =
        ((r.state ^^^ (r.state >>> 12)) ^^^
            (((r.state ^^^ (r.state >>> 12)) <<< 25) % 2 ^ 64)) ^^^
          (((r.state ^^^ (r.state >>> 12)) ^^^
              (((r.state ^^^ (r.state >>> 12)) <<< 25) % 2 ^ 64)) >>> 27) ∧
      (r.next_u64).1 = ((r.next_u64).2).state * 0x2545F4914F6CDD1D % 2 ^ 64 :=
  ⟨rfl, rfl⟩

/-- C3: The PRNG state is never zero after seeding: `from_seed` maps 0 to a
fixed non-zero constant and any non-zero seed to itself, and a `next_u64` draw
maps every non-zero state to a non-zero state. -/
theorem state_nonzero_invariant :
    (∀ seed : Nat, (TinyRng.from_seed seed).state ≠ 0) ∧
      (TinyRng.from_seed 0).state = 0x4d595df4d0f33173 ∧
      (∀ seed : Nat, seed ≠ 0 → (TinyRng.from_seed seed).state = seed) ∧
      ∀ r : TinyRng, r.state ≠ 0 → ((r.next_u64).2).state ≠ 0 := by
  refine ⟨?_, rfl, ?_, ?_⟩
  · intro seed
    show (if seed = 0 then 0x4d595df4d0f33173 else seed) ≠ 0
    split
    · decide
    · assumption
  · intro seed h
    show (if seed = 0 then 0x4d595df4d0f33173 else seed) = seed
    rw [if_neg h]
  · exact next_state_ne_zero

/-- Witness for C3 at seed 7 and at the remapped zero seed. -/
theorem state_nonzero_invariant_witness :
    (TinyRng.from_seed 7).state = 7 ∧
      ((TinyRng.from_seed 0).next_u64).2.state ≠ 0 :=
  ⟨state_nonzero_invariant.2.2.1 7 (by decide),
    state_nonzero_invariant.2.2.2 (TinyRng.from_seed 0) (by decide)⟩

/-- C4: `from_seed` gives initial PRNG state `0x4d595df4d0f33173` for seed 0
and the seed itself for any non-zero seed. -/
theorem from_seed_spec :
    (NameGenerator.from_seed 0).rng.state = 0x4d595df4d0f33173 ∧
      ∀ v : Nat, v ≠ 0 → (NameGenerator.from_seed v).rng.state = v := by
  refine ⟨rfl, ?_⟩
  intro v hv
  show (if v = 0 then 0x4d595df4d0f33173 else v) = v
  rw [if_neg hv]

/-- Witness for C4 at seed 42. -/
theorem from_seed_spec_witness : (NameGenerator.from_seed 42).rng.state = 42 :=
  from_seed_spec.2 42 (by decide)

/-- C5: `index` is total: with a positive bound it returns a draw reduced
modulo the bound, hence a value below the bound; with bound 0 it returns 0
deterministically, leaving the state unchanged. -/
theorem index_spec (r : TinyRng) (bound : Nat) :
    (bound = 0 → r.index bound = (0, r)) ∧
      (0 < bound →
        (r.index bound).1 = (r.next_u64).1 % bound ∧
          (r.index bound).1 < bound ∧ (r.index bound).2 = (r.next_u64).2) := by
  constructor
  · intro h
    subst h
    rfl
  · intro h
    rw [index_pos_eq r h]
    exact ⟨rfl, Nat.mod_lt _ h, rfl⟩

/-- Witness for C5 at bounds 0 and 7. -/
theorem index_spec_witness :
    (TinyRng.from_seed 3).index 0 = (0, TinyRng.from_seed 3) ∧
      ((TinyRng.from_seed 3).index 7).1 < 7 :=
  ⟨(index_spec (TinyRng.from_seed 3) 0).1 rfl,
    ((index_spec (TinyRng.from_seed 3) 7).2 (by decide)).2.1⟩

/-- C6: Title-casing formats `("shiny", "mango")` to exactly `"Shiny Mango"`
and `("glossy", "black cod")` to exactly `"Glossy Black Cod"`; in general the
formatter loop upper-cases the first character and every character following a
hyphen, underscore or embedded space, and lower-cases every other character
(split-capitalize-join form). -/
theorem title_case_spec :
    (NamePair.mk "shiny" "mango").title_case = "Shiny Mango" ∧
      (NamePair.mk "glossy" "black cod").title_case = "Glossy Black Cod" ∧
      ∀ w : List Char, push_title_case true w = specTitleCase w :=
  ⟨by decide, by decide, fun w => (push_title_case_eq_spec w).1⟩

/-- C7: For every pair drawn from the static catalogs the formatted name is
the title-cased adjective and title-cased noun joined by exactly one literal
space, with no leading or trailing whitespace, an upper-case first character
and an interior space; consequently the free functions return well-formed
names for every global RNG state. -/
theorem formatted_names_well_formed :
    (∀ a n : String, a ∈ ADJECTIVES →
        n ∈ FOOD_WORDS.nouns ∨ n ∈ SCIFI_WORDS.nouns →
        (NamePair.mk a n).title_case.data =
            push_title_case true a.data ++ ' ' :: push_title_case true n.data ∧
          wellFormedName (NamePair.mk a n).title_case) ∧
      ∀ rng : TinyRng,
        wellFormedName (random_food_name rng).1 ∧
          wellFormedName (random_scifi_name rng).1 := by
  constructor
  · intro a n ha hn
    refine ⟨rfl, titled_pair_wf (adjectives_titled_ok a ha) ?_⟩
    cases hn with
    | inl h => exact food_titled_ok n h
    | inr h => exact scifi_titled_ok n h
  · intro rng
    constructor
    · have hm := select_pair_mem FOOD_WORDS catalogs_nonempty.2.1 rng
      have hw := titled_pair_wf (adjectives_titled_ok _ hm.1) (food_titled_ok _ hm.2)
      rw [show (random_food_name rng).1 = (select_pair FOOD_WORDS rng).1.title_case
          from random_name_fst FOOD_WORDS rng]
      exact hw
    · have hm := select_pair_mem SCIFI_WORDS catalogs_nonempty.2.2 rng
      have hw := titled_pair_wf (adjectives_titled_ok _ hm.1) (scifi_titled_ok _ hm.2)
      rw [show (random_scifi_name rng).1 = (select_pair SCIFI_WORDS rng).1.title_case
          from random_name_fst SCIFI_WORDS rng]
      exact hw

/-- Witness for C7 at the catalog pair ("shiny", "mango"). -/
theorem formatted_names_well_formed_witness :
    wellFormedName (NamePair.mk "shiny" "mango").title_case :=
  (formatted_names_well_formed.1 "shiny" "mango" (by decide) (Or.inl (by decide))).2

/-- C8: Each selection draws exactly two indices, the adjective index first and
the noun index second, and the returned adjective is an element of the shared
adjective catalog while the noun is an element of the theme-matching noun
catalog. -/
theorem select_pair_two_draws (rng : TinyRng) :
    (∀ words : WordLists,
        select_pair words rng =
          (⟨ADJECTIVES.getD (rng.index ADJECTIVES.length).1 "",
            words.nouns.getD
              (((rng.index ADJECTIVES.length).2).index words.nouns.length).1 ""⟩,
           (((rng.index ADJECTIVES.length).2).index words.nouns.length).2)) ∧
      (select_pair FOOD_WORDS rng).1.adjective ∈ ADJECTIVES ∧
      (select_pair FOOD_WORDS rng).1.noun ∈ FOOD_WORDS.nouns ∧
      (select_pair SCIFI_WORDS rng).1.adjective ∈ ADJECTIVES ∧
      (select_pair SCIFI_WORDS rng).1.noun ∈ SCIFI_WORDS.nouns :=
  ⟨fun words => select_pair_eq words rng,
    (select_pair_mem FOOD_WORDS catalogs_nonempty.2.1 rng).1,
    (select_pair_mem FOOD_WORDS catalogs_nonempty.2.1 rng).2,
    (select_pair_mem SCIFI_WORDS catalogs_nonempty.2.2 rng).1,
    (select_pair_mem SCIFI_WORDS catalogs_nonempty.2.2 rng).2⟩

/-- C9: Cloning a generator in any reachable state and then drawing any number
of pairs with any fixed interleaving from the original and from the clone
yields identical sequences of pairs. -/
theorem clone_equivalence (g : NameGenerator) (calls : List Theme) :
    (runCalls calls g.clone).1 = (runCalls calls g).1 := rfl

/-- C10: Seeds 0 and `0x4d595df4d0f33173` are distinct public seeds that
construct generators with identical internal state, so every finite
interleaving of draws produces identical sequences: a seed collision
observable at the public interface. -/
theorem seed_zero_collision :
    NameGenerator.from_seed 0 = NameGenerator.from_seed 0x4d595df4d0f33173 ∧
      (0 : Nat) ≠ 0x4d595df4d0f33173 ∧
      ∀ calls : List Theme,
        runCalls calls (NameGenerator.from_seed 0) =
          runCalls calls (NameGenerator.from_seed 0x4d595df4d0f33173) := by
  refine ⟨by decide, by decide, fun calls => ?_⟩
  rw [show NameGenerator.from_seed 0 = NameGenerator.from_seed 0x4d595df4d0f33173
      from by decide]
